import Mathlib

/-!
# Verification of the ASR-Comparative evaluation tools

Shallow embedding of the repository's three source files:

* `src/tools/normalize.py`  — `TextNormalizer`, an ordered pipeline of
  string-rewriting passes (lowercase, punctuation, letter/digit separation,
  domain replacements, digit unification, numeral-to-words, punctuation strip,
  Spanish agreement fix-up, whitespace cleanup);
* `src/tools/nlu_utils.py`  — `NLUEvaluator`, rule-scoped intent and slot
  evaluation over normalized transcripts;
* `src/tools/wer_utils.py`  — `calculate_wer_from_dataframe`, per-record and
  corpus-level word-error-rate aggregation.

Strings are modelled as `List Char` / `String`; Python's regular-expression
character classes are modelled over the repertoire the repository actually
uses (ASCII plus the Spanish accented letters); machine floats are modelled
as exact rationals `ℚ`; fallible external calls are modelled with `Option` /
`Except`.  The external black boxes (fuzzywuzzy scorers, jiwer alignment)
are parameters of the corresponding definitions, as the repository treats
them as opaque score/count providers.
-/

namespace ASRComp

/-! ## Character classes (models of Python `re` classes and `str` methods) -/

/-- The lowercase Spanish accented letters that appear in the source regex
character class `[a-zA-Záéíóúñ]` of `_separate_letters_and_numbers`. -/
def esAccentLower : List Char := ['á', 'é', 'í', 'ó', 'ú', 'ñ']

/-- Letters recognised by the source regex `[a-zA-Záéíóúñ]`
(ASCII letters of either case plus the lowercase accented letters). -/
def isLetterEs (c : Char) : Bool :=
  c.isAlpha || esAccentLower.contains c

/-- Decimal digit, Python `\d` (ASCII). -/
def isDigitC (c : Char) : Bool := c.isDigit

/-- Python `\s` whitespace class. -/
def isSpacePy (c : Char) : Bool :=
  c = ' ' || c = '\t' || c = '\n' || c = '\x0d' || c = '\x0b' || c = '\x0c'

/-- Python `\w` word-character class, modelled over the ASCII + Spanish
accented repertoire used by the repository's data. -/
def isWordCharPy (c : Char) : Bool :=
  c.isAlphanum || c = '_' ||
    ['á', 'é', 'í', 'ó', 'ú', 'ñ', 'Á', 'É', 'Í', 'Ó', 'Ú', 'Ñ', 'ü', 'Ü'].contains c

/-- Whether the (possibly absent) character at a position is a word
character; absent (string edge) counts as non-word, as in `re`'s `\b`. -/
def isWordOpt : Option Char → Bool
  | some c => isWordCharPy c
  | none => false

/-- Is the (possibly absent) character at a position a digit?  An absent
character (string edge) is not; used to phrase the maximality of a digit
run at its two ends. -/
def isDigitOpt : Option Char → Bool
  | some c => isDigitC c
  | none => false

/-- Python `str.lower` on the ASCII + Spanish accented repertoire. -/
def toLowerPy (c : Char) : Char :=
  if c = 'Á' then 'á'
  else if c = 'É' then 'é'
  else if c = 'Í' then 'í'
  else if c = 'Ó' then 'ó'
  else if c = 'Ú' then 'ú'
  else if c = 'Ñ' then 'ñ'
  else if c = 'Ü' then 'ü'
  else c.toLower

/-- Lowercase a whole string (Python `str.lower`). -/
def lowerStr (s : String) : String := String.mk (s.data.map toLowerPy)

/-- Case-insensitive character comparison (Python `re.IGNORECASE`). -/
def ciEq (a b : Char) : Bool := toLowerPy a == toLowerPy b

/-- Case-sensitive character comparison (plain `re` matching). -/
def csEq (a b : Char) : Bool := a == b

/-! ## `TextNormalizer` pipeline steps (src/tools/normalize.py) -/

/-- Step 2 of `normalize`: `text.replace('.', ' ').replace(',', ' ')`. -/
def puncToSpace (l : List Char) : List Char :=
  l.map (fun c => if c = '.' || c = ',' then ' ' else c)

/-- First regex of `_separate_letters_and_numbers`:
`re.sub(r'([a-zA-Záéíóúñ])(\d)', r'\1 \2', text)` — a matched pair is
consumed whole (`re.sub` resumes after the match). -/
def sepLetterDigit : List Char → List Char
  | [] => []
  | [a] => [a]
  | a :: b :: rest =>
    if isLetterEs a && isDigitC b then a :: ' ' :: b :: sepLetterDigit rest
    else a :: sepLetterDigit (b :: rest)

/-- Second regex of `_separate_letters_and_numbers`:
`re.sub(r'(\d)([a-zA-Záéíóúñ])', r'\1 \2', text)`. -/
def sepDigitLetter : List Char → List Char
  | [] => []
  | [a] => [a]
  | a :: b :: rest =>
    if isDigitC a && isLetterEs b then a :: ' ' :: b :: sepDigitLetter rest
    else a :: sepDigitLetter (b :: rest)

/-- Does `pat` match (under comparison `cmp`) a prefix of `text`?
Models matching a literal (escaped) regex pattern. -/
def prefixMatch (cmp : Char → Char → Bool) : List Char → List Char → Bool
  | [], _ => true
  | _ :: _, [] => false
  | p :: ps, t :: ts => cmp p t && prefixMatch cmp ps ts

/-- `re.sub(r'\b' + escaped_literal + r'\b', repl, text)` for a non-empty
literal pattern `p0 :: pt`, scanning left to right and resuming after each
replacement, with word boundaries evaluated on the original text.
`prevW` records whether the character just before the current position (in
the original text) is a word character.
After a replacement the remaining matched characters are consumed via the
`skip` counter (one per recursive step, keeping the recursion structural);
`prevW` is then the last matched original character's word-ness. -/
def replaceWBGo (cmp : Char → Char → Bool) (p0 : Char) (pt repl : List Char) :
    Nat → Bool → List Char → List Char
  | _, _, [] => []
  | k + 1, prevW, _ :: rest => replaceWBGo cmp p0 pt repl k prevW rest
  | 0, prevW, c :: rest =>
    let lastM := (rest.take pt.length).getLastD c
    if cmp p0 c && prefixMatch cmp pt rest && (prevW != isWordCharPy c) &&
        (isWordCharPy lastM != isWordOpt (rest.drop pt.length).head?) then
      repl ++ replaceWBGo cmp p0 pt repl pt.length (isWordCharPy lastM) rest
    else
      c :: replaceWBGo cmp p0 pt repl 0 (isWordCharPy c) rest

/-- The whole-word substitution, started at the beginning of the text
(no preceding character, hence `prevW = false`, no pending skip). -/
def replaceWB (cmp : Char → Char → Bool) (p0 : Char) (pt repl : List Char)
    (prevW : Bool) (text : List Char) : List Char :=
  replaceWBGo cmp p0 pt repl 0 prevW text

/-- One entry of `_apply_custom_replacements`:
`re.sub(r'\b' + re.escape(original) + r'\b', replacement, text, flags=re.IGNORECASE)`. -/
def applyOneReplacement (text : List Char) (entry : String × String) : List Char :=
  match entry.1.data with
  | [] => text
  | p0 :: pt => replaceWB ciEq p0 pt entry.2.data false text

/-- `_get_default_replacements`, in dictionary insertion order. -/
def defaultReplacements : List (String × String) :=
  [("1 tb", "un terabyte"), ("tb", "terabyte"),
   ("gb", "gigabyte"),
   ("i 7", "i siete"), ("i 5", "i cinco"), ("i 3", "i tres"),
   ("a 4", "a cuatro"), ("a4", "a cuatro"),
   ("xg", "equis ge"),
   ("f a", "efe a"), ("fa", "efe a"),
   ("compu facil", "compufacil"),
   ("compu fácil", "compufacil"),
   ("compufácil", "compufacil"),
   ("tecno sis", "tecnosys"),
   ("techno sys", "tecnosys"),
   ("tecno sys", "tecnosys"),
   ("tecnosis", "tecnosys"),
   ("andina corp", "andinacorp"),
   ("andina corp.", "andinacorp"),
   ("dura disco", "duradisco"),
   ("dulcesideas", "dulces ideas"),
   ("papelmundo", "papel mundo")]

/-- `_apply_custom_replacements`: each table entry is applied as its own
whole-text substitution pass, in insertion order. -/
def applyCustomReplacements (l : List Char) : List Char :=
  defaultReplacements.foldl applyOneReplacement l

/-- Separator class `[\s-]` of `_unify_spaced_digits`. -/
def isUnifySep (c : Char) : Bool := isSpacePy c || c = '-'

/-- `_unify_spaced_digits`: `re.sub(r'(?<=\d)[\s-]+(?=\d)', '', text)` —
delete any run of whitespace/hyphen characters strictly between two digits.
Streaming formulation: while the last emitted character is a digit
(`afterDigit`), separator characters are buffered in `pend` (in reverse);
the buffer is discarded if the run ends at a digit and flushed otherwise. -/
def unifyDigitsGo : (afterDigit : Bool) → (pend : List Char) → List Char → List Char
  | _, pend, [] => pend.reverse
  | afterDigit, pend, c :: rest =>
    if isDigitC c then
      c :: unifyDigitsGo true [] rest
    else if afterDigit && isUnifySep c then
      unifyDigitsGo true (c :: pend) rest
    else
      pend.reverse ++ c :: unifyDigitsGo false [] rest

/-- `_unify_spaced_digits` on the whole text. -/
def unifyDigits (l : List Char) : List Char := unifyDigitsGo false [] l

/-! ## The number converter (external dependency `num2words`, lang "es") -/

/-- Modelled from the spec: the external number converter (`num2words` with
`lang='es'`) is a black-box integer → spoken-word-string function.  We model
it faithfully on 0–999: inside the pipeline the cardinal branch only ever
receives runs of at most 3 digits (longer runs are classified as codes), so
0–999 is the entire reachable domain; `none` models a conversion failure
(an exception of the converter). 0–29 by table, then tens, then hundreds. -/
def num2wordsEsSmall : List String :=
  ["cero", "uno", "dos", "tres", "cuatro", "cinco", "seis", "siete", "ocho",
   "nueve", "diez", "once", "doce", "trece", "catorce", "quince",
   "dieciséis", "diecisiete", "dieciocho", "diecinueve", "veinte",
   "veintiuno", "veintidós", "veintitrés", "veinticuatro", "veinticinco",
   "veintiséis", "veintisiete", "veintiocho", "veintinueve"]

/-- Spanish tens words for 30,40,…,90. -/
def num2wordsEsTens : List String :=
  ["treinta", "cuarenta", "cincuenta", "sesenta", "setenta", "ochenta", "noventa"]

/-- Spanish hundreds words for 100,200,…,900 (composed form for 100). -/
def num2wordsEsHundreds : List String :=
  ["ciento", "doscientos", "trescientos", "cuatrocientos", "quinientos",
   "seiscientos", "setecientos", "ochocientos", "novecientos"]

/-- Spanish cardinal below 100. -/
def num2wordsEsBelow100 (n : Nat) : String :=
  if n < 30 then num2wordsEsSmall.getD n ""
  else
    let t := num2wordsEsTens.getD (n / 10 - 3) ""
    if n % 10 = 0 then t else t ++ " y " ++ num2wordsEsSmall.getD (n % 10) ""

/-- Modelled from the spec: `num2words(n, lang='es')` on its reachable
domain 0–999 (`none` beyond models failure of the black box). -/
def num2wordsEs (n : Nat) : Option String :=
  if n ≤ 999 then
    some
      (if n < 100 then num2wordsEsBelow100 n
       else if n = 100 then "cien"
       else
         let h := num2wordsEsHundreds.getD (n / 100 - 1) ""
         if n % 100 = 0 then h else h ++ " " ++ num2wordsEsBelow100 (n % 100))
  else none

/-! ## Numeral-to-words pass (`_numbers_to_words`) -/

/-- Numeric value of a digit character (Python `int(digit)`). -/
def digitVal (c : Char) : Nat := c.toNat - '0'.toNat

/-- Numeric value of a digit string (Python `int(number_str)`). -/
def digitsToNat (l : List Char) : Nat := l.foldl (fun a c => 10 * a + digitVal c) 0

/-- The inner `convert_number` of `_numbers_to_words`, applied to one matched
digit run, parameterised by the black-box number converter `n2w`.
A run is a *code* iff it starts with '0' and has length > 1, or has length
≥ 4; codes are converted digit by digit (`num2words` never fails on a single
digit 0–9, so the `getD` default is unreachable for any converter defined
there); otherwise the run is converted as one cardinal, a conversion failure
(the source's `except`) leaving the run unchanged. -/
def convertNumber (n2w : Nat → Option String) (run : List Char) : List Char :=
  if (run.head? = some '0' ∧ 1 < run.length) ∨ 4 ≤ run.length then
    List.intercalate [' '] (run.map (fun d => ((n2w (digitVal d)).getD "").data))
  else
    match n2w (digitsToNat run) with
    | some w => w.data
    | none => run

/-- State of the `_numbers_to_words` scanner: `none` outside a digit run;
`some (runRev, startOk)` inside one, holding the digits seen so far (in
reverse) and whether the run began at a word boundary. -/
abbrev N2WState := Option (List Char × Bool)

/-- Emit a finished digit run: it is rewritten by `convertNumber` exactly
when both its boundaries are word boundaries (`startOk`, and `afterOk` for
the position following the run), and kept verbatim otherwise — `re` finds
no match anywhere inside a maximal run that fails a boundary, since every
interior position sits between two digits. -/
def n2wFlush (n2w : Nat → Option String) : N2WState → (afterOk : Bool) → List Char
  | none, _ => []
  | some (runRev, startOk), afterOk =>
    if startOk && afterOk then convertNumber n2w runRev.reverse
    else runRev.reverse

/-- `_numbers_to_words`: `re.sub(r'\b\d+\b', convert_number, text)` — every
maximal digit run bounded by word boundaries is rewritten by
`convertNumber`; a run adjacent to a letter/underscore has no word boundary
and is left alone.  `prevW` records whether the previous original character
is a word character (a digit run in progress makes it `true`). -/
def numbersToWordsGo (n2w : Nat → Option String) :
    N2WState → (prevW : Bool) → List Char → List Char
  | st, _, [] => n2wFlush n2w st true
  | st, prevW, c :: rest =>
    if isDigitC c then
      match st with
      | none => numbersToWordsGo n2w (some ([c], !prevW)) true rest
      | some (runRev, startOk) =>
        numbersToWordsGo n2w (some (c :: runRev, startOk)) true rest
    else
      n2wFlush n2w st (!(isWordCharPy c)) ++
        c :: numbersToWordsGo n2w none (isWordCharPy c) rest

/-- `_numbers_to_words` on the whole text. -/
def numbersToWords (n2w : Nat → Option String) (l : List Char) : List Char :=
  numbersToWordsGo n2w none false l

/-! ## Remaining passes and the full `normalize` -/

/-- `_remove_punctuation`: `re.sub(r'[^\w\s]', ' ', text)` followed by
`text.replace('_', ' ')`. -/
def removePunct (l : List Char) : List Char :=
  (l.map (fun c => if !(isWordCharPy c || isSpacePy c) then ' ' else c)).map
    (fun c => if c = '_' then ' ' else c)

/-- The six `(pattern, replacement)` pairs of `_spanish_post_processing`. -/
def spanishPostPairs : List (String × String) :=
  [("uno terabyte", "un terabyte"),
   ("uno gigabyte", "un gigabyte"),
   ("uno monitor", "un monitor"),
   ("uno soporte", "un soporte"),
   ("uno escritorio", "un escritorio"),
   ("uno pedido", "un pedido")]

/-- `_spanish_post_processing`: case-sensitive whole-word replacements
`re.sub(r'\buno X\b', 'un X', text)` in order. -/
def spanishPost (l : List Char) : List Char :=
  spanishPostPairs.foldl
    (fun t entry =>
      match entry.1.data with
      | [] => t
      | p0 :: pt => replaceWB csEq p0 pt entry.2.data false t)
    l

/-- First half of `_clean_whitespace`: `re.sub(r'\s+', ' ', text)` — a
whitespace run becomes one space (`prevSpace` marks a run in progress). -/
def collapseWSGo : (prevSpace : Bool) → List Char → List Char
  | _, [] => []
  | prevSpace, c :: rest =>
    if isSpacePy c then
      if prevSpace then collapseWSGo true rest
      else ' ' :: collapseWSGo true rest
    else c :: collapseWSGo false rest

/-- `re.sub(r'\s+', ' ', text)` on the whole text. -/
def collapseWS (l : List Char) : List Char := collapseWSGo false l

/-- Python `str.strip`: drop leading and trailing whitespace. -/
def stripList (l : List Char) : List Char :=
  ((l.dropWhile isSpacePy).reverse.dropWhile isSpacePy).reverse

/-- `_clean_whitespace`: collapse whitespace runs to one space, then strip. -/
def cleanWS (l : List Char) : List Char := stripList (collapseWS l)

/-- `TextNormalizer.normalize` on string input: the guard
`if not text or not isinstance(text, str): return ""` (string case), then
the nine pipeline passes in source order, with the number converter
instantiated to the modelled `num2words(…, lang='es')`. -/
def normalize (text : String) : String :=
  if text = "" then ""
  else
    String.mk
      (cleanWS
        (spanishPost
          (removePunct
            (numbersToWords num2wordsEs
              (unifyDigits
                (applyCustomReplacements
                  (sepDigitLetter
                    (sepLetterDigit
                      (puncToSpace (text.data.map toLowerPy))))))))))

/-- A Python value reaching `normalize`: a string, `None`, or any
non-string value (the source is called on dataframe cells, which may hold
any of these). -/
inductive PyValue where
  | str (s : String)
  | pyNone
  | nonString
deriving DecidableEq

/-- `TextNormalizer.normalize` including its input guard
`if not text or not isinstance(text, str): return ""`: `None` and
non-string values short-circuit to `""`; strings go through `normalize`
(whose own guard handles `""`, the only falsy string). Totality of this
function models that the guard never raises. -/
def normalizePy : PyValue → String
  | .str s => normalize s
  | .pyNone => ""
  | .nonString => ""

/-! ## `NLUEvaluator` (src/tools/nlu_utils.py) -/

/-- One entry of `NLUEvaluator.RULES`: expected intent, keyword list, and
slot table (`{key: expected_value}`, insertion order preserved). -/
structure NluRule where
  intent : String
  keywords : List String
  slots : List (String × String)
deriving DecidableEq, Repr

/-- `NLUEvaluator.RULES` as the ordered key/value list of the source
dictionary (keys 1–15, unique). -/
def RULES_LIST : List (Int × NluRule) :=
  [(1, ⟨"crear_cotizacion", ["cotización", "cotizacion"],
        [("cliente", "compufacil"), ("cantidad", "cinco")]⟩),
   (2, ⟨"crear_presupuesto", ["presupuesto"],
        [("cliente", "tecnosys"), ("cantidad", "diez")]⟩),
   (3, ⟨"crear_oferta", ["oferta", "comercial"],
        [("contacto", "carla"), ("modelo", "equis ge")]⟩),
   (4, ⟨"crear_proforma", ["proforma"],
        [("cliente", "andina"), ("modelo", "core i siete"), ("cantidad", "dos")]⟩),
   (5, ⟨"buscar_factura", ["busca", "factura"],
        [("cliente", "velasco")]⟩),
   (6, ⟨"generar_factura", ["genera", "factura"],
        [("serie", "ocho cinco dos cero dos cinco")]⟩),
   (7, ⟨"verificar_pago", ["verifica", "pagada"],
        [("factura", "efe a cuatro cero nueve cinco")]⟩),
   (8, ⟨"consultar_inventario", ["cuantas", "sillas"],
        [("ubicacion", "guayaquil")]⟩),
   (9, ⟨"registrar_ingreso", ["ingreso", "registra"],
        [("cantidad", "cincuenta"), ("item", "resmas")]⟩),
   (10, ⟨"consultar_stock", ["stock", "dame"],
        [("capacidad", "terabyte"), ("marca", "dura disco")]⟩),
   (11, ⟨"ver_historial", ["historial", "compras"],
        [("cliente", "terroso"), ("tiempo", "seis")]⟩),
   (12, ⟨"crear_cliente", ["crea", "cliente"],
        [("ruc", "cero nueve dos dos")]⟩),
   (13, ⟨"info_contacto", ["numero", "telefono", "número", "teléfono"],
        [("empresa", "dulces ideas")]⟩),
   (14, ⟨"reporte_ventas", ["reporte", "ventas"],
        [("vendedor", "daniel"), ("mes", "agosto")]⟩),
   (15, ⟨"reporte_top_producto", ["producto", "vendido"],
        [("tiempo", "trimestre")]⟩)]

/-- Dictionary lookup `self.RULES[scenario_id]` (keys are unique, so
first-match lookup models the Python dict). -/
def RULES (id : Int) : Option NluRule :=
  (RULES_LIST.find? (fun p => p.1 == id)).map Prod.snd

/-- One dataframe row as seen by `_evaluate_row`: `audio` is the scenario
id after `int(row['audio'])`, with `none` modelling the caught
`ValueError`/`KeyError`; `text_normalized` is the transcript cell, `none`
modelling a missing (`NaN`) value. -/
structure NluRow where
  audio : Option Int
  text_normalized : Option String
deriving DecidableEq, Repr

/-- The result series produced by `_evaluate_row`. -/
structure NluOut where
  intent_expected : String
  intent_predicted : String
  intent_success : Bool
  slots_found_count : Nat
  slots_total_count : Nat
  slots_success : Bool
  nlu_success : Bool
deriving DecidableEq, Repr

/-- The sentinel series returned when the scenario id is unparseable or
not in the rule table. -/
def nluSentinel : NluOut :=
  { intent_expected := "unknown"
    intent_predicted := "error"
    intent_success := false
    slots_found_count := 0
    slots_total_count := 0
    slots_success := false
    nlu_success := false }

/-- Python substring containment `needle in hay` on character lists. -/
def isInfixL : List Char → List Char → Bool
  | needle, [] => needle.isEmpty
  | needle, h :: t => needle.isPrefixOf (h :: t) || isInfixL needle t

/-- Python `keyword in text` (substring containment) on strings. -/
def containsSub (needle hay : String) : Bool := isInfixL needle.data hay.data

/-- The transcript text used by `_evaluate_row`:
`str(row['text_normalized']).lower() if pd.notna(...) else ""`. -/
def rowText (row : NluRow) : String :=
  match row.text_normalized with
  | some s => lowerStr s
  | none => ""

/-- `NLUEvaluator._evaluate_row`, parameterised by the black-box
`fuzz.partial_ratio` scorer (0–100).  Intent: `any(keyword in text …)`;
slots: a counting loop over the rule's slots, one hit per slot whose
expected value scores strictly above 85 against the whole transcript. -/
def evaluateRow (partialRatio : String → String → Nat) (row : NluRow) : NluOut :=
  match row.audio with
  | none => nluSentinel
  | some id =>
    match RULES id with
    | none => nluSentinel
    | some rule =>
      let text := rowText row
      let intent_match := rule.keywords.any (fun kw => containsSub kw text)
      let intent_predicted := if intent_match then rule.intent else "no_match"
      let intent_success := intent_predicted == rule.intent
      let slots_found :=
        rule.slots.foldl
          (fun acc s => if partialRatio s.2 text > 85 then acc + 1 else acc) 0
      let slots_total := rule.slots.length
      let slots_success := slots_found == slots_total
      { intent_expected := rule.intent
        intent_predicted := intent_predicted
        intent_success := intent_success
        slots_found_count := slots_found
        slots_total_count := slots_total
        slots_success := slots_success
        nlu_success := intent_success && slots_success }

/-- `NLUEvaluator.evaluate_dataset`: row-by-row application of
`_evaluate_row` over the whole dataset. -/
def evaluateDataset (partialRatio : String → String → Nat)
    (rows : List NluRow) : List NluOut :=
  rows.map (evaluateRow partialRatio)

/-! ## WER scorer (src/tools/wer_utils.py) -/

/-- One parsed ground-truth JSON record: `id` field plus a possibly missing
`text` field (`none` models the key being absent). -/
structure GTItem where
  id : String
  text : Option String
deriving DecidableEq, Repr

/-- Python `str.strip()` (whitespace at both ends). -/
def stripPy (s : String) : String := String.mk (stripList s.data)

/-- The validation predicate of the ground-truth loading loop:
`'text' not in item or not str(item['text']).strip()`. -/
def gtInvalid (item : GTItem) : Bool :=
  match item.text with
  | none => true
  | some t => stripPy t == ""

/-- The `ValueError` message raised for an invalid ground-truth item
(apostrophes of the source f-string omitted). -/
def gtErrorMsg (item : GTItem) : String :=
  "Invalid ground truth: text field is empty or missing for id " ++ item.id

/-- `ground_truth_map = {item['id']: item['text'] for item in …}` followed by
`.get(audio_val, "")`: a Python dict comprehension lets later duplicate ids
override earlier ones, hence lookup on the reversed list. -/
def refOf (gts : List GTItem) (audioVal : String) : String :=
  match gts.reverse.find? (fun it => it.id == audioVal) with
  | some it => it.text.getD ""
  | none => ""

/-- One dataset row as seen by `calculate_wer_from_dataframe`: `audio`
already stringified (`str(row['audio'])`), `text_normalized` possibly
missing (`NaN`). -/
structure WerRow where
  audio : String
  text_normalized : Option String
deriving DecidableEq, Repr

/-- The counts returned by the black-box aligner
`jiwer.process_words(reference, hypothesis)`. -/
structure AlignOut where
  substitutions : Nat
  deletions : Nat
  insertions : Nat
  hits : Nat
deriving DecidableEq, Repr

/-- The per-row series built by `calculate_wer_measures`: row WER (`none`
models the `None` used for rows without a reference, which pandas stores as
`NaN` and `dropna` later removes), error count, reference word count and the
three edit counts (0 in the no-reference branch, where the source emits a
shorter series whose missing columns become `NaN`; those rows are dropped
before any of these fields is read). -/
structure WerOut where
  wer : Option ℚ
  errors : Nat
  reference_words : Nat
  substitutions : Nat
  deletions : Nat
  insertions : Nat
deriving DecidableEq, Repr

/-- `calculate_wer_measures` for one row, parameterised by the black-box
aligner.  `jiwer`'s `output.wer` is `(S+D+I)/(S+D+H)` (modelled from the
spec's description of the WER primitive); its value is only ever used
through its non-`NaN`-ness, in `dropna`. -/
def perRowWer (align : String → String → AlignOut) (gts : List GTItem)
    (row : WerRow) : WerOut :=
  let reference := refOf gts row.audio
  let hypothesis := row.text_normalized.getD ""
  if reference = "" then
    { wer := none, errors := 0, reference_words := 0
      substitutions := 0, deletions := 0, insertions := 0 }
  else
    let o := align reference hypothesis
    let errors := o.substitutions + o.deletions + o.insertions
    let refW := o.hits + o.substitutions + o.deletions
    { wer := some (if refW = 0 then 0 else (errors : ℚ) / (refW : ℚ))
      errors := errors
      reference_words := refW
      substitutions := o.substitutions
      deletions := o.deletions
      insertions := o.insertions }

/-- `calculate_wer_from_dataframe`: validate the ground truth (raising —
`Except.error` — at the first invalid item, before any row is scored),
score every row, drop rows without a reference, and aggregate: global WER
is total errors over total reference words, `0.0` for an empty valid set or
a zero denominator. -/
def calculateWer (align : String → String → AlignOut) (gts : List GTItem)
    (rows : List WerRow) : Except String (ℚ × List WerOut) :=
  match gts.find? gtInvalid with
  | some item => .error (gtErrorMsg item)
  | none =>
    let outs := rows.map (perRowWer align gts)
    let valid := outs.filter (fun o => o.wer.isSome)
    if valid.isEmpty then .ok (0, outs)
    else
      let totalErrors : Nat := (valid.map (·.errors)).sum
      let totalRefWords : Nat := (valid.map (·.reference_words)).sum
      .ok
        (if totalRefWords > 0 then (totalErrors : ℚ) / (totalRefWords : ℚ) else 0,
         outs)

/-- Did the call return normally (no exception)? -/
def isOkE {α : Type} : Except String α → Bool
  | .ok _ => true
  | .error _ => false

/-- The global WER of a successful run. -/
def globalOf (r : Except String (ℚ × List WerOut)) : Option ℚ :=
  match r with
  | .ok p => some p.1
  | .error _ => none

/-! Spec-side corpus aggregation, written from the spec's words for the
refinement claim about the global rate: sum the error counts of the records
that have a resolvable reference, divide by the sum of their reference word
counts, 0 when that denominator is 0. -/

/-- Spec-side total error count over records with a resolvable reference. -/
def specTotalErrors (align : String → String → AlignOut) (gts : List GTItem)
    (rows : List WerRow) : Nat :=
  ((rows.filter (fun r => refOf gts r.audio ≠ "")).map
      (fun r =>
        let o := align (refOf gts r.audio) (r.text_normalized.getD "")
        o.substitutions + o.deletions + o.insertions)).sum

/-- Spec-side total reference word count (hits + substitutions + deletions)
over records with a resolvable reference. -/
def specTotalRefWords (align : String → String → AlignOut) (gts : List GTItem)
    (rows : List WerRow) : Nat :=
  ((rows.filter (fun r => refOf gts r.audio ≠ "")).map
      (fun r =>
        let o := align (refOf gts r.audio) (r.text_normalized.getD "")
        o.hits + o.substitutions + o.deletions)).sum

/-- Spec-side corpus WER: errors over reference words, 0 when the
denominator is 0. -/
def specGlobalWer (align : String → String → AlignOut) (gts : List GTItem)
    (rows : List WerRow) : ℚ :=
  if specTotalRefWords align gts rows = 0 then 0
  else (specTotalErrors align gts rows : ℚ) / (specTotalRefWords align gts rows : ℚ)

/-! ## Claims -/

/-- C4: the full normalization pipeline maps the spec's concrete example
inputs to their stated outputs: "85-20-25" ↦ "ocho cinco dos cero dos
cinco", "RUC 09 22" ↦ "ruc cero nueve dos dos", "FA-4095" ↦ "efe a cuatro
cero nueve cinco", and "5 monitores" ↦ "cinco monitores". -/
theorem C4_normalize_examples :
    normalize "85-20-25" = "ocho cinco dos cero dos cinco" ∧
    normalize "RUC 09 22" = "ruc cero nueve dos dos" ∧
    normalize "FA-4095" = "efe a cuatro cero nueve cinco" ∧
    normalize "5 monitores" = "cinco monitores" := by
  refine ⟨?_, ?_, ?_, ?_⟩ <;> decide

/-- C5 counterexample: `normalize` is not idempotent on every string: on
"_5" the underscore (a `\w` character) blocks the word boundary of the
digit-run regex, so the digit survives the conversion pass and the
underscore is then stripped, giving "5"; a second pass converts that to
"cinco". -/
theorem C5_not_idempotent_counterexample :
    normalize (normalize "_5") ≠ normalize "_5" := by
  decide

/-- C5 amended: one normalization pass is a fixed point on the repository's
tested inputs (the five critical test cases of the source's verification
block), though not on every string. -/
theorem C5_idempotent_on_tested_inputs :
    normalize (normalize "85-20-25") = normalize "85-20-25" ∧
    normalize (normalize "85 20 25") = normalize "85 20 25" ∧
    normalize (normalize "RUC 09 22") = normalize "RUC 09 22" ∧
    normalize (normalize "FA-4095") = normalize "FA-4095" ∧
    normalize (normalize "5 monitores") = normalize "5 monitores" := by
  refine ⟨?_, ?_, ?_, ?_, ?_⟩ <;> decide

/-- C6: `normalize` yields the empty string for empty, `None`, and
non-string input; the guard returns rather than raising (modelled by the
totality of `normalizePy`). -/
theorem C6_normalize_guard :
    normalizePy (.str "") = "" ∧
    normalizePy .pyNone = "" ∧
    normalizePy .nonString = "" := by
  refine ⟨?_, rfl, rfl⟩
  rfl

/-- One scanner step on a digit character: the run state is opened (its
start boundary recorded from `prevW`) or extended. -/
lemma numbersToWordsGo_cons_digit (n2w : Nat → Option String) (st : N2WState)
    (prevW : Bool) (c : Char) (t : List Char) (hc : isDigitC c = true) :
    numbersToWordsGo n2w st prevW (c :: t) =
      numbersToWordsGo n2w
        (match st with
         | none => some ([c], !prevW)
         | some (runRev, ok) => some (c :: runRev, ok)) true t := by
  cases st with
  | none => rw [numbersToWordsGo, if_pos hc]
  | some p => cases p with | mk r ok => rw [numbersToWordsGo, if_pos hc]

/-- One scanner step on a non-digit character: any pending run is flushed
against this character's word-ness, the character is emitted, and scanning
continues with no run in progress. -/
lemma numbersToWordsGo_cons_nondigit (n2w : Nat → Option String)
    (st : N2WState) (prevW : Bool) (c : Char) (t : List Char)
    (hc : isDigitC c = false) :
    numbersToWordsGo n2w st prevW (c :: t) =
      n2wFlush n2w st (!(isWordCharPy c)) ++
        c :: numbersToWordsGo n2w none (isWordCharPy c) t := by
  cases st with
  | none => rw [numbersToWordsGo, if_neg (by simp [hc])]
  | some p =>
    cases p with | mk r ok => rw [numbersToWordsGo, if_neg (by simp [hc])]

/-- Scanning from inside a digit run: a digit-only segment `s` is
accumulated onto the run, which is then flushed against the boundary
following it — `post` must not start with a digit, so the run is maximal. -/
lemma numbersToWordsGo_digits (n2w : Nat → Option String) (s : List Char)
    (h : ∀ c ∈ s, isDigitC c = true) (runRev : List Char) (ok : Bool)
    (post : List Char) (hpost : isDigitOpt post.head? = false) :
    numbersToWordsGo n2w (some (runRev, ok)) true (s ++ post) =
      n2wFlush n2w (some (s.reverse ++ runRev, ok)) (!isWordOpt post.head?) ++
        numbersToWordsGo n2w none true post := by
  induction s generalizing runRev with
  | nil =>
    simp only [List.nil_append, List.reverse_nil]
    cases post with
    | nil => simp [numbersToWordsGo, n2wFlush, isWordOpt]
    | cons c t =>
      have hc : isDigitC c = false := by simpa [isDigitOpt] using hpost
      rw [numbersToWordsGo_cons_nondigit n2w (some (runRev, ok)) true c t hc,
        numbersToWordsGo_cons_nondigit n2w none true c t hc]
      simp [n2wFlush, isWordOpt]
  | cons d s' ih =>
    have hd : isDigitC d = true := h d (by simp)
    rw [List.cons_append,
      numbersToWordsGo_cons_digit n2w (some (runRev, ok)) true d _ hd,
      ih (fun c hc => h c (by simp [hc])) (d :: runRev)]
    have hrev : s'.reverse ++ (d :: runRev) = (d :: s').reverse ++ runRev := by
      simp
    rw [hrev]

/-- With no run in progress and no digit coming next, the scanner's output
does not depend on the previous character's word-ness (`prevW` only feeds
the boundary check at the start of a run). -/
lemma numbersToWordsGo_prevW_irrel (n2w : Nat → Option String)
    (post : List Char) (w₁ w₂ : Bool) (hpost : isDigitOpt post.head? = false) :
    numbersToWordsGo n2w none w₁ post = numbersToWordsGo n2w none w₂ post := by
  cases post with
  | nil => rfl
  | cons c t =>
    have hc : isDigitC c = false := by simpa [isDigitOpt] using hpost
    rw [numbersToWordsGo_cons_nondigit n2w none w₁ c t hc,
      numbersToWordsGo_cons_nondigit n2w none w₂ c t hc]

/-- The scanner distributes over an append whose left part does not end in
a digit: no run crosses the seam, so the suffix is scanned from the no-run
state with `prevW` given by the left part's last character. -/
lemma numbersToWordsGo_append (n2w : Nat → Option String) (pre : List Char)
    (st : N2WState) (prevW : Bool) (rest : List Char) :
    pre ≠ [] → isDigitOpt pre.getLast? = false →
      numbersToWordsGo n2w st prevW (pre ++ rest) =
        numbersToWordsGo n2w st prevW pre ++
          numbersToWordsGo n2w none (isWordOpt pre.getLast?) rest := by
  induction pre generalizing st prevW with
  | nil => intro hne _; exact absurd rfl hne
  | cons c pre' ih =>
    intro _ hlast
    cases pre' with
    | nil =>
      have hc : isDigitC c = false := by
        simpa [isDigitOpt, List.getLast?_singleton] using hlast
      rw [List.cons_append, List.nil_append,
        numbersToWordsGo_cons_nondigit n2w st prevW c rest hc,
        numbersToWordsGo_cons_nondigit n2w st prevW c [] hc]
      simp [numbersToWordsGo, n2wFlush, isWordOpt]
    | cons c2 pre'' =>
      have hlast' : isDigitOpt (c2 :: pre'').getLast? = false := by
        rwa [List.getLast?_cons_cons] at hlast
      rw [List.getLast?_cons_cons]
      by_cases hc : isDigitC c = true
      · rw [List.cons_append,
          numbersToWordsGo_cons_digit n2w st prevW c _ hc,
          numbersToWordsGo_cons_digit n2w st prevW c _ hc,
          ih _ true (by simp) hlast']
      · have hc' : isDigitC c = false := by simpa using hc
        rw [List.cons_append,
          numbersToWordsGo_cons_nondigit n2w st prevW c _ hc',
          numbersToWordsGo_cons_nondigit n2w st prevW c _ hc',
          ih none (isWordCharPy c) (by simp) hlast']
        simp

/-- C3: in the numeral-conversion pass, every maximal digit run — a
non-empty all-digit segment whose neighbours on both sides are not digits —
of an arbitrary text is rewritten in place: when both neighbours are
non-word characters (or text edges), i.e. the run is bounded by word
boundaries, it is rendered digit-by-digit (each digit as its own word from
the converter) exactly when it starts with '0' and is longer than one
digit, or is at least four digits long, and otherwise converted as one
cardinal number, left unchanged when the cardinal conversion fails; a run
adjacent to a word character (letter or underscore) is left unchanged.  The
surrounding text is processed independently on each side.  Stated for an
arbitrary black-box converter. -/
theorem C3_digit_run_classification (n2w : Nat → Option String)
    (pre run post : List Char) (h1 : run ≠ [])
    (h2 : ∀ c ∈ run, isDigitC c = true)
    (hpre : isDigitOpt pre.getLast? = false)
    (hpost : isDigitOpt post.head? = false) :
    numbersToWords n2w (pre ++ run ++ post) =
      numbersToWords n2w pre ++
        (if isWordOpt pre.getLast? = false ∧ isWordOpt post.head? = false then
           (if (run.head? = some '0' ∧ 1 < run.length) ∨ 4 ≤ run.length then
              List.intercalate [' ']
                (run.map (fun d => ((n2w (digitVal d)).getD "").data))
            else
              match n2w (digitsToNat run) with
              | some w => w.data
              | none => run)
         else run) ++
        numbersToWords n2w post := by
  match run, h1 with
  | c :: rtail, _ =>
    have hc : isDigitC c = true := h2 c (by simp)
    have hdig : ∀ x ∈ rtail, isDigitC x = true := fun x hx => h2 x (by simp [hx])
    have hseg : ∀ w : Bool,
        numbersToWordsGo n2w none w ((c :: rtail) ++ post) =
          n2wFlush n2w (some (rtail.reverse ++ [c], !w)) (!isWordOpt post.head?) ++
            numbersToWordsGo n2w none true post := by
      intro w
      rw [List.cons_append, numbersToWordsGo_cons_digit n2w none w c _ hc]
      exact numbersToWordsGo_digits n2w rtail hdig [c] (!w) post hpost
    have hrev : (rtail.reverse ++ [c]).reverse = c :: rtail := by simp
    have hirr : numbersToWordsGo n2w none true post =
        numbersToWordsGo n2w none false post :=
      numbersToWordsGo_prevW_irrel n2w post true false hpost
    cases pre with
    | nil =>
      unfold numbersToWords
      rw [List.nil_append, hseg false, hirr, n2wFlush, hrev]
      cases hv : isWordOpt post.head? with
      | false => simp [convertNumber, numbersToWordsGo, n2wFlush, isWordOpt]
      | true => simp [numbersToWordsGo, n2wFlush, isWordOpt]
    | cons p pre' =>
      unfold numbersToWords
      rw [List.append_assoc,
        numbersToWordsGo_append n2w (p :: pre') none false _ (by simp) hpre,
        hseg (isWordOpt (p :: pre').getLast?), hirr, n2wFlush, hrev]
      cases hw : isWordOpt (p :: pre').getLast? with
      | false =>
        cases hv : isWordOpt post.head? with
        | false => simp [convertNumber]
        | true => simp
      | true => simp

/-- C3 witness: the maximal run "0922" (leading zero, length 4) embedded
as "ruc 0922 ok", taken through the theorem at the concrete Spanish
converter. -/
theorem C3_digit_run_classification_witness :
    ("0922".data ≠ [] ∧ (∀ c ∈ "0922".data, isDigitC c = true) ∧
     isDigitOpt "ruc ".data.getLast? = false ∧
     isDigitOpt " ok".data.head? = false) ∧
    numbersToWords num2wordsEs ("ruc ".data ++ "0922".data ++ " ok".data) =
      numbersToWords num2wordsEs "ruc ".data ++
        (if isWordOpt "ruc ".data.getLast? = false ∧
            isWordOpt " ok".data.head? = false then
           (if ("0922".data.head? = some '0' ∧ 1 < "0922".data.length) ∨
               4 ≤ "0922".data.length then
              List.intercalate [' ']
                ("0922".data.map
                  (fun d => ((num2wordsEs (digitVal d)).getD "").data))
            else
              match num2wordsEs (digitsToNat "0922".data) with
              | some w => w.data
              | none => "0922".data)
         else "0922".data) ++
        numbersToWords num2wordsEs " ok".data :=
  ⟨⟨by decide, by decide, by decide, by decide⟩,
   C3_digit_run_classification num2wordsEs "ruc ".data "0922".data " ok".data
     (by decide) (by decide) (by decide) (by decide)⟩

/-! ### NLU claims -/

/-- An admissible instance of the black-box fuzzy scorer's
substring-containment variant: 100 when the needle occurs verbatim in the
text, 0 otherwise. -/
def fuzzySub (a b : String) : Nat := if containsSub a b then 100 else 0

/-- An admissible instance of a black-box fuzzy scorer that always
returns 83 (a score between the spec's threshold 80 and the source's 85). -/
def const83 (_ _ : String) : Nat := 83

/-- No rule in the table uses the "no_match" sentinel as its intent. -/
lemma rules_intent_ne_no_match (id : Int) (rule : NluRule)
    (h : RULES id = some rule) : rule.intent ≠ "no_match" := by
  unfold RULES at h
  cases hf : RULES_LIST.find? (fun p => p.1 == id) with
  | none => rw [hf] at h; simp at h
  | some p =>
    rw [hf] at h
    simp at h
    have hmem := List.mem_of_find?_eq_some hf
    have hall : ∀ q ∈ RULES_LIST, q.2.intent ≠ "no_match" := by decide
    rw [← h]
    exact hall p hmem

/-- C1 counterexample: for the record with scenario id 5 and transcript
"busca", the evaluator predicts the rule's intent (it deems the intent
matched), although under an admissible substring-containment scorer not
every keyword of the rule scores above 80 — the source requires only *one*
keyword, by exact containment, not *every* keyword by fuzzy score. -/
theorem C1_counterexample :
    RULES 5 = some ⟨"buscar_factura", ["busca", "factura"],
      [("cliente", "velasco")]⟩ ∧
    (evaluateRow fuzzySub ⟨some 5, some "busca"⟩).intent_predicted =
      "buscar_factura" ∧
    ¬ (∀ kw ∈ ["busca", "factura"],
        80 < fuzzySub kw (rowText ⟨some 5, some "busca"⟩)) := by
  refine ⟨by decide, by decide, by decide⟩

/-- C1 amended: for a record whose scenario id resolves to a rule, the
predicted intent is the rule's intent iff at least one keyword of the rule
occurs as an exact substring of the lowercased transcript (no fuzzy score
and no threshold take part in intent matching). -/
theorem C1_intent_any_exact_substring (pr : String → String → Nat)
    (row : NluRow) (id : Int) (rule : NluRule)
    (h1 : row.audio = some id) (h2 : RULES id = some rule) :
    (evaluateRow pr row).intent_predicted = rule.intent ↔
      ∃ kw ∈ rule.keywords, containsSub kw (rowText row) = true := by
  have hne := rules_intent_ne_no_match id rule h2
  simp only [evaluateRow, h1, h2]
  by_cases hm : rule.keywords.any (fun kw => containsSub kw (rowText row)) = true
  · simp only [hm]
    simpa using List.any_eq_true.mp hm
  · simp only [Bool.not_eq_true] at hm
    simp only [hm]
    constructor
    · intro habs; exact absurd habs.symm hne
    · intro hex
      exact absurd (List.any_eq_true.mpr (by simpa using hex)) (by simp [hm])

/-- C1 witness: scenario 5 with transcript "busca" — the keyword "busca" is
contained, so the amended criterion predicts the rule's intent. -/
theorem C1_intent_any_exact_substring_witness :
    (evaluateRow fuzzySub ⟨some 5, some "busca"⟩).intent_predicted =
      "buscar_factura" :=
  (C1_intent_any_exact_substring fuzzySub ⟨some 5, some "busca"⟩ 5
    ⟨"buscar_factura", ["busca", "factura"], [("cliente", "velasco")]⟩
    rfl (by decide)).mpr (by decide)

/-- The slot-hit criterion exactly as the claim states it: the token-set
variant scores expected values of at most 6 characters, the
substring-containment variant scores longer ones, and a slot hits iff the
score is at least 80. -/
def specSlotHit (tokenSet partialR : String → String → Nat)
    (value text : String) : Bool :=
  if value.length ≤ 6 then 80 ≤ tokenSet value text else 80 ≤ partialR value text

/-- C2 counterexample: with an admissible scorer returning 83 for every
pair, the source counts 0 slot hits for scenario 1 (it demands
`partial_ratio > 85`), while the claim's criterion (variant by length,
hit iff score ≥ 80) marks both slots of the rule as hits. -/
theorem C2_counterexample :
    RULES 1 = some ⟨"crear_cotizacion", ["cotización", "cotizacion"],
      [("cliente", "compufacil"), ("cantidad", "cinco")]⟩ ∧
    (evaluateRow const83 ⟨some 1, some "x"⟩).slots_found_count = 0 ∧
    ([("cliente", "compufacil"), ("cantidad", "cinco")].countP
        (fun s => specSlotHit const83 const83 s.2
          (rowText ⟨some 1, some "x"⟩))) = 2 := by
  refine ⟨by decide, by decide, by decide⟩

/-- The slot loop of `_evaluate_row` counts the slots whose expected value
scores strictly above 85. -/
lemma slots_foldl_count (pr : String → String → Nat) (text : String)
    (slots : List (String × String)) (n : Nat) :
    slots.foldl (fun acc s => if pr s.2 text > 85 then acc + 1 else acc) n =
      n + slots.countP (fun s => decide (85 < pr s.2 text)) := by
  induction slots generalizing n with
  | nil => simp
  | cons s rest ih =>
    rw [List.foldl_cons, List.countP_cons, ih]
    simp only [decide_eq_true_eq]
    split_ifs with hs <;> omega

/-- C2 amended: for a record whose scenario id resolves to a rule, every
slot is scored with the substring-containment (`partial_ratio`) variant
against the whole transcript regardless of the expected value's length, a
slot hits iff its score is strictly greater than 85, and slot success means
every slot of the rule hits. -/
theorem C2_slot_partial_ratio_over85 (pr : String → String → Nat)
    (row : NluRow) (id : Int) (rule : NluRule)
    (h1 : row.audio = some id) (h2 : RULES id = some rule) :
    (evaluateRow pr row).slots_found_count =
      rule.slots.countP (fun s => decide (85 < pr s.2 (rowText row))) ∧
    (evaluateRow pr row).slots_total_count = rule.slots.length ∧
    ((evaluateRow pr row).slots_success = true ↔
      ∀ s ∈ rule.slots, 85 < pr s.2 (rowText row)) := by
  simp only [evaluateRow, h1, h2]
  refine ⟨by simpa using slots_foldl_count pr (rowText row) rule.slots 0,
    by trivial, ?_⟩
  show (_ == _) = true ↔ _
  rw [beq_iff_eq, slots_foldl_count]
  simp only [Nat.zero_add]
  rw [List.countP_eq_length]
  simp

/-- C2 witness: scenario 1 with a transcript containing both expected slot
values verbatim, under the containment scorer (score 100 > 85). -/
theorem C2_slot_partial_ratio_over85_witness :
    (evaluateRow fuzzySub ⟨some 1,
        some "genera una cotizacion para el cliente compufacil cantidad cinco"⟩).slots_found_count = 2 ∧
    (evaluateRow fuzzySub ⟨some 1,
        some "genera una cotizacion para el cliente compufacil cantidad cinco"⟩).slots_success = true := by
  have h := C2_slot_partial_ratio_over85 fuzzySub
    ⟨some 1, some "genera una cotizacion para el cliente compufacil cantidad cinco"⟩
    1 ⟨"crear_cotizacion", ["cotización", "cotizacion"],
      [("cliente", "compufacil"), ("cantidad", "cinco")]⟩ rfl (by decide)
  exact ⟨by rw [h.1]; decide, h.2.2.mpr (by decide)⟩

/-- C7: an unparseable scenario id or an id with no rule yields the
sentinel result — `intent_predicted = "error"`, both slot counts 0, all
success flags false — and the whole dataset still evaluates to one result
per record (the evaluator is total). -/
theorem C7_unresolvable_id_sentinel (pr : String → String → Nat)
    (row : NluRow)
    (h : row.audio = none ∨ ∃ id, row.audio = some id ∧ RULES id = none) :
    (evaluateRow pr row).intent_predicted = "error" ∧
    (evaluateRow pr row).slots_found_count = 0 ∧
    (evaluateRow pr row).slots_total_count = 0 ∧
    (evaluateRow pr row).intent_success = false ∧
    (evaluateRow pr row).slots_success = false ∧
    (evaluateRow pr row).nlu_success = false ∧
    ∀ rows : List NluRow, (evaluateDataset pr rows).length = rows.length := by
  have hs : evaluateRow pr row = nluSentinel := by
    rcases h with h | ⟨id, h1, h2⟩
    · simp only [evaluateRow, h]
    · simp only [evaluateRow, h1, h2]
  rw [hs]
  exact ⟨rfl, rfl, rfl, rfl, rfl, rfl, fun rows => by simp [evaluateDataset]⟩

/-- C7 witness: a record whose `audio` cell does not parse as an integer. -/
theorem C7_unresolvable_id_sentinel_witness :
    (evaluateRow fuzzySub ⟨none, some "genera una factura"⟩).intent_predicted
        = "error" ∧
    (evaluateRow fuzzySub ⟨none, some "genera una factura"⟩).slots_found_count = 0 ∧
    (evaluateRow fuzzySub ⟨none, some "genera una factura"⟩).slots_total_count = 0 ∧
    (evaluateRow fuzzySub ⟨none, some "genera una factura"⟩).intent_success = false ∧
    (evaluateRow fuzzySub ⟨none, some "genera una factura"⟩).slots_success = false ∧
    (evaluateRow fuzzySub ⟨none, some "genera una factura"⟩).nlu_success = false ∧
    ∀ rows : List NluRow,
      (evaluateDataset fuzzySub rows).length = rows.length :=
  C7_unresolvable_id_sentinel fuzzySub ⟨none, some "genera una factura"⟩
    (Or.inl rfl)

/-- C10: when the scenario id resolves to a rule, the predicted intent is
either that rule's own intent or the "no_match" sentinel — the evaluator
never scans other rules (only the rule-scoped strategy is implemented). -/
theorem C10_rule_scoped_prediction (pr : String → String → Nat)
    (row : NluRow) (id : Int) (rule : NluRule)
    (h1 : row.audio = some id) (h2 : RULES id = some rule) :
    (evaluateRow pr row).intent_predicted = rule.intent ∨
      (evaluateRow pr row).intent_predicted = "no_match" := by
  simp only [evaluateRow, h1, h2]
  by_cases hm : rule.keywords.any (fun kw => containsSub kw (rowText row)) = true
  · left; simp [hm]
  · right; simp only [Bool.not_eq_true] at hm; simp [hm]

/-- C10 witness: scenario 3 with an unrelated transcript. -/
theorem C10_rule_scoped_prediction_witness :
    (evaluateRow fuzzySub ⟨some 3, some "hola"⟩).intent_predicted =
        "crear_oferta" ∨
    (evaluateRow fuzzySub ⟨some 3, some "hola"⟩).intent_predicted =
        "no_match" :=
  C10_rule_scoped_prediction fuzzySub ⟨some 3, some "hola"⟩ 3
    ⟨"crear_oferta", ["oferta", "comercial"],
      [("contacto", "carla"), ("modelo", "equis ge")]⟩ rfl (by decide)

/-! ### WER claims -/

/-- A ground-truth item passes the load-time validation iff its text field
is present and not blank. -/
lemma gtInvalid_eq_false_iff (item : GTItem) :
    gtInvalid item = false ↔
      item.text ≠ none ∧ stripPy (item.text.getD "") ≠ "" := by
  unfold gtInvalid
  cases item.text <;> simp

/-- A concrete aligner used in witnesses: one substitution against the
first example reference (errors 1, reference words 4), a perfect match of
six words otherwise (errors 0, reference words 6). -/
def alignEx (r _h : String) : AlignOut :=
  if r = "la caja esta lista" then ⟨1, 0, 0, 3⟩ else ⟨0, 0, 0, 6⟩

/-- C8: the WER scorer raises (returns `Except.error`) exactly when some
ground-truth entry has a missing or blank text field, and such an error is
determined by the ground truth alone — the same error results with no
records at all, i.e. it is raised at load time, before any record is
scored; scoring proceeds (`Except.ok`) only when every reference text is
present and non-blank. -/
theorem C8_blank_reference_fails_at_load (align : String → String → AlignOut)
    (gts : List GTItem) (rows : List WerRow) :
    (isOkE (calculateWer align gts rows) = true ↔
      ∀ item ∈ gts, item.text ≠ none ∧ stripPy (item.text.getD "") ≠ "") ∧
    (∀ m, calculateWer align gts rows = .error m →
      calculateWer align gts [] = .error m) := by
  constructor
  · unfold calculateWer
    cases hf : gts.find? gtInvalid with
    | some item =>
      constructor
      · intro habs; exact absurd habs (by simp [isOkE])
      · intro hall
        have hinv := List.find?_some hf
        have hmem := List.mem_of_find?_eq_some hf
        have := (gtInvalid_eq_false_iff item).mpr (hall item hmem)
        rw [this] at hinv
        exact absurd hinv (by simp)
    | none =>
      have hall := List.find?_eq_none.mp hf
      constructor
      · intro _ item hm
        exact (gtInvalid_eq_false_iff item).mp (by simpa using hall item hm)
      · intro _
        dsimp only
        split <;> rfl
  · intro m hm
    unfold calculateWer at hm ⊢
    cases hf : gts.find? gtInvalid with
    | some item => rw [hf] at hm; exact hm
    | none =>
      rw [hf] at hm
      dsimp only at hm
      split at hm <;> exact absurd hm (by simp)

/-- C8 witness: a ground truth whose single entry is missing its text
field makes the call error out, and the same error obtains with an empty
record list (the error is raised before scoring). -/
theorem C8_blank_reference_fails_at_load_witness :
    isOkE (calculateWer alignEx [⟨"1", none⟩] [⟨"1", some "hola"⟩]) = false ∧
    calculateWer alignEx [⟨"1", none⟩] [] =
      .error (gtErrorMsg ⟨"1", none⟩) := by
  have h := C8_blank_reference_fails_at_load alignEx [⟨"1", none⟩]
    [⟨"1", some "hola"⟩]
  refine ⟨?_, ?_⟩
  · rcases hok : isOkE (calculateWer alignEx [⟨"1", none⟩] [⟨"1", some "hola"⟩]) with _ | _
    · rfl
    · exact absurd ((h.1.mp hok ⟨"1", none⟩ (by simp)).1) (by simp)
  · exact h.2 (gtErrorMsg ⟨"1", none⟩) (by rfl)

/-- C9: when the ground truth is valid, the corpus-level WER returned is
exactly the sum of error counts over the records with a resolvable
reference divided by the sum of those records' reference word counts
(hits + substitutions + deletions), records without a reference being
excluded, and 0 when that denominator is 0 — for any aligner, ground truth
and record list. -/
theorem C9_global_wer_formula (align : String → String → AlignOut)
    (gts : List GTItem) (rows : List WerRow)
    (h : ∀ item ∈ gts, gtInvalid item = false) :
    globalOf (calculateWer align gts rows) =
      some (specGlobalWer align gts rows) := by
  have hf : gts.find? gtInvalid = none :=
    List.find?_eq_none.mpr (fun item hm => by simp [h item hm])
  unfold calculateWer
  rw [hf]
  have hfilter :
      (rows.map (perRowWer align gts)).filter (fun o => o.wer.isSome) =
        (rows.filter (fun r => decide (refOf gts r.audio ≠ ""))).map
          (perRowWer align gts) := by
    rw [List.filter_map]
    congr 1
    apply List.filter_congr
    intro r _
    show ((perRowWer align gts r).wer.isSome) = _
    unfold perRowWer
    by_cases hr : refOf gts r.audio = "" <;> simp [hr]
  have herr :
      (((rows.filter (fun r => decide (refOf gts r.audio ≠ ""))).map
          (perRowWer align gts)).map (fun o => o.errors)).sum =
        specTotalErrors align gts rows := by
    unfold specTotalErrors
    rw [List.map_map]
    congr 1
    apply List.map_congr_left
    intro r hr
    have : refOf gts r.audio ≠ "" := by simpa using (List.mem_filter.mp hr).2
    simp only [Function.comp]
    unfold perRowWer
    rw [if_neg this]
  have hwords :
      (((rows.filter (fun r => decide (refOf gts r.audio ≠ ""))).map
          (perRowWer align gts)).map (fun o => o.reference_words)).sum =
        specTotalRefWords align gts rows := by
    unfold specTotalRefWords
    rw [List.map_map]
    congr 1
    apply List.map_congr_left
    intro r hr
    have : refOf gts r.audio ≠ "" := by simpa using (List.mem_filter.mp hr).2
    simp only [Function.comp]
    unfold perRowWer
    rw [if_neg this]
  dsimp only
  rw [hfilter]
  by_cases hemp :
      ((rows.filter (fun r => decide (refOf gts r.audio ≠ ""))).map
        (perRowWer align gts)).isEmpty = true
  · rw [if_pos hemp]
    have hnil := List.isEmpty_iff.mp hemp
    have hz : specTotalRefWords align gts rows = 0 := by
      rw [← hwords, hnil]
      simp
    unfold globalOf specGlobalWer
    rw [if_pos hz]
  · rw [if_neg (by simpa using hemp)]
    rw [herr, hwords]
    unfold globalOf specGlobalWer
    by_cases hz : specTotalRefWords align gts rows = 0
    · rw [if_pos hz, if_neg (by omega)]
    · rw [if_neg hz, if_pos (by omega)]

/-- C9 witness: the spec's aggregation example — two scored records with
(errors 1, reference words 4) and (errors 0, reference words 6) plus one
record without a reference give a global WER of 1/10. -/
theorem C9_global_wer_formula_witness :
    (∀ item ∈ ([⟨"1", some "la caja esta lista"⟩,
        ⟨"2", some "uno dos tres cuatro cinco seis"⟩] : List GTItem),
      gtInvalid item = false) ∧
    globalOf (calculateWer alignEx
      [⟨"1", some "la caja esta lista"⟩,
       ⟨"2", some "uno dos tres cuatro cinco seis"⟩]
      [⟨"1", some "la caja esta rota"⟩,
       ⟨"2", some "uno dos tres cuatro cinco seis"⟩,
       ⟨"3", some "sin referencia"⟩]) = some (1 / 10 : ℚ) := by
  refine ⟨by decide, ?_⟩
  rw [C9_global_wer_formula alignEx _ _ (by decide)]
  have he : specTotalErrors alignEx
      [⟨"1", some "la caja esta lista"⟩,
       ⟨"2", some "uno dos tres cuatro cinco seis"⟩]
      [⟨"1", some "la caja esta rota"⟩,
       ⟨"2", some "uno dos tres cuatro cinco seis"⟩,
       ⟨"3", some "sin referencia"⟩] = 1 := by decide
  have hw : specTotalRefWords alignEx
      [⟨"1", some "la caja esta lista"⟩,
       ⟨"2", some "uno dos tres cuatro cinco seis"⟩]
      [⟨"1", some "la caja esta rota"⟩,
       ⟨"2", some "uno dos tres cuatro cinco seis"⟩,
       ⟨"3", some "sin referencia"⟩] = 10 := by decide
  unfold specGlobalWer
  rw [he, hw]
  norm_num

end ASRComp
